import Mathlib

set_option autoImplicit false

/-!
Shallow embedding of the Library-System repository (files `libraryItem.py`,
`book.py`, `dvd.py`, `magazine.py`, `main.py`) and proofs of the spec claims.

Python strings are modelled as Lean `String`, Python ints as `Int`,
`datetime.date` as `PyDate`, and the JSON file as a list of field-level
records (`RawRecord`).
-/

namespace LibrarySpec

/-! ### The `datetime.date` model

`Magazine.publicationDate` is a Python `datetime.date`: a validated
proleptic-Gregorian calendar date.  `main.py` serializes it with
`date.isoformat()` (`YYYY-MM-DD`, zero padded) and parses it back with
`date.fromisoformat`. -/

structure PyDate where
  year : Nat
  month : Nat
  day : Nat
deriving DecidableEq, Repr

def isLeapYear (y : Nat) : Bool :=
  (y % 4 == 0 && y % 100 != 0) || y % 400 == 0

def daysInMonth (y m : Nat) : Nat :=
  if m == 2 then (if isLeapYear y then 29 else 28)
  else if m == 4 || m == 6 || m == 9 || m == 11 then 30
  else 31

/-- The range check performed by the `datetime.date` constructor (and by
`date.fromisoformat` after splitting the string). -/
def isValidDate (y m d : Nat) : Bool :=
  1 ≤ y && y ≤ 9999 && 1 ≤ m && m ≤ 12 && 1 ≤ d && d ≤ daysInMonth y m

def PyDate.valid (d : PyDate) : Bool :=
  isValidDate d.year d.month d.day

/-! Decimal digit printing and parsing, used by `isoformat` /
`fromisoformat`.  `natCharsAux` is fuel-based so that it is structurally
recursive (and hence evaluates inside `decide`); `natChars_eq` ties it to
`Nat.digits`. -/

def digitChar (n : Nat) : Char := Char.ofNat (48 + n)

def charVal (c : Char) : Nat := c.toNat - 48

def natCharsAux : Nat → Nat → List Char
  | 0, _ => []
  | _ + 1, 0 => []
  | fuel + 1, n + 1 => digitChar ((n + 1) % 10) :: natCharsAux fuel ((n + 1) / 10)

/-- The decimal digits of `n`, most significant first (empty for `0`). -/
def natChars (n : Nat) : List Char := (natCharsAux n n).reverse

def padZeros (k : Nat) (cs : List Char) : List Char :=
  List.replicate (k - cs.length) '0' ++ cs

/-- `n` printed in decimal, left padded with `'0'` to width `k`
(Python's `"%0kd"`, as used by `date.isoformat`). -/
def natToPadded (k n : Nat) : List Char := padZeros k (natChars n)

/-- Little-endian decimal value of a digit list (same as `Nat.ofDigits 10`,
but structurally computable). -/
def ofDigitsLE : List Nat → Nat
  | [] => 0
  | d :: ds => d + 10 * ofDigitsLE ds

/-- Numeric value of a big-endian digit-character list. -/
def parseChars (cs : List Char) : Nat := ofDigitsLE ((cs.map charVal).reverse)

/-- `date.isoformat`: `YYYY-MM-DD` with zero padding. -/
def PyDate.toIso (d : PyDate) : String :=
  ⟨natToPadded 4 d.year ++ '-' :: (natToPadded 2 d.month ++ '-' :: natToPadded 2 d.day)⟩

/-- `date.fromisoformat` restricted to the canonical `YYYY-MM-DD` form it is
given by this program: ten characters, digits in the date positions,
hyphens at positions 4 and 7, ranges validated.  `none` models the
`ValueError` raised on any other input. -/
def parseIso (s : String) : Option PyDate :=
  match s.data with
  | [y1, y2, y3, y4, s1, m1, m2, s2, d1, d2] =>
    if y1.isDigit && y2.isDigit && y3.isDigit && y4.isDigit && s1 == '-'
        && m1.isDigit && m2.isDigit && s2 == '-' && d1.isDigit && d2.isDigit then
      let y := parseChars [y1, y2, y3, y4]
      let m := parseChars [m1, m2]
      let d := parseChars [d1, d2]
      if isValidDate y m d then some ⟨y, m, d⟩ else none
    else none
  | _ => none

/-! ### Round-trip facts about the date encoding -/

theorem natCharsAux_eq {fuel n : Nat} (h : n ≤ fuel) :
    natCharsAux fuel n = (Nat.digits 10 n).map digitChar := by
  induction fuel generalizing n with
  | zero =>
    interval_cases n
    simp [natCharsAux]
  | succ fuel ih =>
    match n with
    | 0 => simp [natCharsAux]
    | n + 1 =>
      rw [natCharsAux, Nat.digits_def' (b := 10) (by norm_num) (Nat.succ_pos n)]
      rw [List.map_cons]
      congr 1
      exact ih (Nat.le_of_lt_succ (Nat.lt_of_lt_of_le (Nat.div_lt_self (Nat.succ_pos n) (by norm_num)) h))

theorem natChars_eq (n : Nat) : natChars n = ((Nat.digits 10 n).map digitChar).reverse := by
  unfold natChars
  rw [natCharsAux_eq (Nat.le_refl n)]

theorem ofDigitsLE_eq (ds : List Nat) : ofDigitsLE ds = Nat.ofDigits 10 ds := by
  induction ds with
  | nil => rfl
  | cons d ds ih => simp [ofDigitsLE, Nat.ofDigits_cons, ih]

theorem charVal_digitChar {n : Nat} (h : n < 10) : charVal (digitChar n) = n := by
  interval_cases n <;> rfl

theorem isDigit_digitChar {n : Nat} (h : n < 10) : (digitChar n).isDigit = true := by
  interval_cases n <;> rfl

theorem mem_natChars_isDigit {n : Nat} {c : Char} (hc : c ∈ natChars n) : c.isDigit = true := by
  rw [natChars_eq, List.mem_reverse, List.mem_map] at hc
  obtain ⟨d, hd, rfl⟩ := hc
  exact isDigit_digitChar (Nat.digits_lt_base (by norm_num) hd)

theorem mem_natToPadded_isDigit {k n : Nat} {c : Char} (hc : c ∈ natToPadded k n) :
    c.isDigit = true := by
  unfold natToPadded padZeros at hc
  rcases List.mem_append.mp hc with h | h
  · rw [List.eq_of_mem_replicate h]
    rfl
  · exact mem_natChars_isDigit h

theorem map_charVal_natChars (n : Nat) :
    (natChars n).map charVal = (Nat.digits 10 n).reverse := by
  rw [natChars_eq, List.map_reverse, List.map_map]
  congr 1
  rw [List.map_congr_left, List.map_id]
  intro d hd
  exact charVal_digitChar (Nat.digits_lt_base (by norm_num) hd)

theorem ofDigitsLE_replicate_zero (m : Nat) : ofDigitsLE (List.replicate m 0) = 0 := by
  induction m with
  | zero => rfl
  | succ m ih => simp [List.replicate, ofDigitsLE, ih]

theorem parseChars_natToPadded (k n : Nat) : parseChars (natToPadded k n) = n := by
  unfold parseChars natToPadded padZeros
  rw [List.map_append, List.map_replicate, map_charVal_natChars]
  have h0 : charVal '0' = 0 := rfl
  rw [h0, List.reverse_append, List.reverse_reverse, List.reverse_replicate]
  rw [ofDigitsLE_eq, Nat.ofDigits_append, Nat.ofDigits_digits]
  rw [← ofDigitsLE_eq, ofDigitsLE_replicate_zero]
  ring

theorem length_natChars_le {k n : Nat} (h : n < 10 ^ k) : (natChars n).length ≤ k := by
  rw [natChars_eq]
  simp only [List.length_reverse, List.length_map]
  rcases Nat.eq_zero_or_pos n with rfl | hn
  · simp
  · rw [Nat.digits_len 10 n (by norm_num) (Nat.pos_iff_ne_zero.mp hn)]
    have := (Nat.lt_pow_iff_log_lt (b := 10) (by norm_num) (Nat.pos_iff_ne_zero.mp hn)).mp h
    omega

theorem length_natToPadded {k n : Nat} (h : n < 10 ^ k) : (natToPadded k n).length = k := by
  have := length_natChars_le h
  unfold natToPadded padZeros
  rw [List.length_append, List.length_replicate]
  omega

theorem length_eq_two {α : Type} {l : List α} (h : l.length = 2) :
    ∃ a b, l = [a, b] := by
  match l, h with
  | [a, b], _ => exact ⟨a, b, rfl⟩

theorem length_eq_four {α : Type} {l : List α} (h : l.length = 4) :
    ∃ a b c d, l = [a, b, c, d] := by
  match l, h with
  | [a, b, c, d], _ => exact ⟨a, b, c, d, rfl⟩

theorem parseIso_toIso {d : PyDate} (h : d.valid = true) : parseIso d.toIso = some d := by
  obtain ⟨dy, dm, dd⟩ := d
  have hv : isValidDate dy dm dd = true := h
  have hb : 1 ≤ dy ∧ dy ≤ 9999 ∧ 1 ≤ dm ∧ dm ≤ 12 ∧ 1 ≤ dd ∧ dd ≤ daysInMonth dy dm := by
    simpa [isValidDate, Bool.and_eq_true, decide_eq_true_eq, and_assoc] using hv
  have hd31 : daysInMonth dy dm ≤ 31 := by
    unfold daysInMonth
    split
    · split <;> norm_num
    · split <;> norm_num
  have hy : dy < 10 ^ 4 := by norm_num; omega
  have hm : dm < 10 ^ 2 := by norm_num; omega
  have hdd : dd < 10 ^ 2 := by norm_num; omega
  obtain ⟨a, b, c, e, hys⟩ := length_eq_four (length_natToPadded hy)
  obtain ⟨f, g, hms⟩ := length_eq_two (length_natToPadded hm)
  obtain ⟨i, j, hds⟩ := length_eq_two (length_natToPadded hdd)
  have hdata : (PyDate.toIso ⟨dy, dm, dd⟩).data = [a, b, c, e, '-', f, g, '-', i, j] := by
    show natToPadded 4 dy ++ '-' :: (natToPadded 2 dm ++ '-' :: natToPadded 2 dd) = _
    rw [hys, hms, hds]
    rfl
  have hdig : ∀ x ∈ natToPadded 4 dy, x.isDigit = true := fun x hx => mem_natToPadded_isDigit hx
  have hdigm : ∀ x ∈ natToPadded 2 dm, x.isDigit = true := fun x hx => mem_natToPadded_isDigit hx
  have hdigd : ∀ x ∈ natToPadded 2 dd, x.isDigit = true := fun x hx => mem_natToPadded_isDigit hx
  rw [hys] at hdig
  rw [hms] at hdigm
  rw [hds] at hdigd
  have ha := hdig a (by simp)
  have hbb := hdig b (by simp)
  have hc := hdig c (by simp)
  have he := hdig e (by simp)
  have hf := hdigm f (by simp)
  have hg := hdigm g (by simp)
  have hi := hdigd i (by simp)
  have hj := hdigd j (by simp)
  unfold parseIso
  rw [hdata]
  simp only [ha, hbb, hc, he, hf, hg, hi, hj, Bool.and_true, Bool.true_and, beq_self_eq_true]
  have hyv : parseChars [a, b, c, e] = dy := by rw [← hys]; exact parseChars_natToPadded 4 dy
  have hmv : parseChars [f, g] = dm := by rw [← hms]; exact parseChars_natToPadded 2 dm
  have hdv : parseChars [i, j] = dd := by rw [← hds]; exact parseChars_natToPadded 2 dd
  simp only [hyv, hmv, hdv, hv, if_true]

/-! ### The catalog model

`LibraryItem` and its three subclasses.  Each variant records exactly the
attributes its `__init__` chain assigns.  Note that `DVD.__init__` passes
`director` (not its `author` parameter) to the base-class constructor, so a
DVD's `author` attribute always equals its `director`; the sum type below
therefore stores only the director for DVDs and the `author` accessor
returns it. -/

inductive Item where
  | book (title author itemId : String) (numPages : Int) (genre : String) (available : Bool)
  | dvd (title director : String) (duration : Int) (itemId : String) (available : Bool)
  | magazine (title : String) (issueNumber : Int) (publicationDate : PyDate)
      (itemId : String) (author : String) (available : Bool)
deriving DecidableEq, Repr

namespace Item

def title : Item → String
  | book t _ _ _ _ _ => t
  | dvd t _ _ _ _ => t
  | magazine t _ _ _ _ _ => t

def itemId : Item → String
  | book _ _ i _ _ _ => i
  | dvd _ _ _ i _ => i
  | magazine _ _ _ i _ _ => i

/-- The base-class `author` attribute.  For a DVD it holds the director
(`DVD.__init__` passes `director` to `super().__init__`). -/
def author : Item → String
  | book _ a _ _ _ _ => a
  | dvd _ dir _ _ _ => dir
  | magazine _ _ _ _ a _ => a

def available : Item → Bool
  | book _ _ _ _ _ av => av
  | dvd _ _ _ _ av => av
  | magazine _ _ _ _ _ av => av

/-- Assignment to the `available` attribute, the only mutation the classes
perform (`borrow_item` / `return_item`). -/
def setAvailable (v : Bool) : Item → Item
  | book t a i n g _ => book t a i n g v
  | dvd t dir du i _ => dvd t dir du i v
  | magazine t iss pd i a _ => magazine t iss pd i a v

/-- A magazine constructed by Python's `date(...)` always carries a valid
calendar date; the other variants have no date. -/
def validDate : Item → Bool
  | magazine _ _ pd _ _ _ => pd.valid
  | _ => true

end Item

/-! ### The persisted JSON records

`_save_data` writes `item.__dict__` plus a `type` discriminator, one JSON
object per item; `_load_data` reads such objects back.  A `RawRecord`
models one such object at field level (a field that is absent from the
object is `none`). -/

structure RawRecord where
  type? : Option String := none
  title? : Option String := none
  author? : Option String := none
  itemId? : Option String := none
  available? : Option Bool := none
  numPages? : Option Int := none
  genre? : Option String := none
  director? : Option String := none
  duration? : Option Int := none
  issueNumber? : Option Int := none
  publicationDate? : Option String := none
deriving DecidableEq, Repr

/-- `_save_data`'s per-item serialization: `item.__dict__` (the attributes
assigned by the `__init__` chain) plus `type` = the class name; for a
Magazine the `publicationDate` is written as `date.isoformat()` text. -/
def save_record : Item → RawRecord
  | .book t a i n g av =>
      { type? := some "Book", title? := some t, author? := some a, itemId? := some i,
        available? := some av, numPages? := some n, genre? := some g }
  | .dvd t dir du i av =>
      { type? := some "DVD", title? := some t, author? := some dir, itemId? := some i,
        available? := some av, director? := some dir, duration? := some du }
  | .magazine t iss pd i a av =>
      { type? := some "Magazine", title? := some t, author? := some a, itemId? := some i,
        available? := some av, issueNumber? := some iss,
        publicationDate? := some pd.toIso }

/-- The whole file `_save_data` writes: one record per item, in collection
order. -/
def save_data (items : List Item) : List RawRecord := items.map save_record

/-! Keyword-argument construction, as performed by `Book(**data)` etc. in
`_load_data`.  Construction fails (Python `TypeError`) when a required
parameter is missing or when the object carries a key that is not a
parameter of that constructor; `available` (and, where present, `author`)
are optional with their Python defaults.  The `type` key was popped before
the call, so `type?` is never a keyword argument. -/

def mkBook (r : RawRecord) : Option Item :=
  match r.title?, r.author?, r.itemId?, r.numPages?, r.genre? with
  | some t, some a, some i, some n, some g =>
      if r.director? = none && r.duration? = none && r.issueNumber? = none
          && r.publicationDate? = none then
        some (.book t a i n g (r.available?.getD true))
      else none
  | _, _, _, _, _ => none

def mkDVD (r : RawRecord) : Option Item :=
  match r.title?, r.director?, r.duration?, r.itemId? with
  | some t, some dir, some du, some i =>
      if r.numPages? = none && r.genre? = none && r.issueNumber? = none
          && r.publicationDate? = none then
        some (.dvd t dir du i (r.available?.getD true))
      else none
  | _, _, _, _ => none

/-- `Magazine(**data)` after `data['publicationDate']` has been replaced by
the parsed date `pd`. -/
def mkMagazine (r : RawRecord) (pd : PyDate) : Option Item :=
  match r.title?, r.issueNumber?, r.itemId? with
  | some t, some iss, some i =>
      if r.numPages? = none && r.genre? = none && r.director? = none
          && r.duration? = none then
        some (.magazine t iss pd i (r.author?.getD "") (r.available?.getD true))
      else none
  | _, _, _ => none

/-- `item_id in loaded_ids` where `item_id = data.get('itemId')` (a missing
`itemId` gives Python `None`, which is never in the set of loaded string
ids). -/
def dupId (r : RawRecord) (ids : List String) : Bool :=
  match r.itemId? with
  | some i => ids.contains i
  | none => false

/-- The record loop of `_load_data`.  `acc` is `self._items`, `ids` is
`loaded_ids`.  A skipped record (duplicate id, missing or empty `type`,
unknown `type`, or a constructor `TypeError`/`KeyError`) continues the
loop; `none` models the uncaught `ValueError` that `date.fromisoformat`
raises on a malformed date string, which aborts the whole load. -/
def loadGo : List RawRecord → List Item → List String → Option (List Item)
  | [], acc, _ => some acc
  | r :: rest, acc, ids =>
    if dupId r ids then loadGo rest acc ids
    else
      match r.type? with
      | none => loadGo rest acc ids
      | some ty =>
        if ty = "" then loadGo rest acc ids
        else if ty = "Book" then
          match mkBook r with
          | some it => loadGo rest (acc ++ [it]) (ids ++ [it.itemId])
          | none => loadGo rest acc ids
        else if ty = "Magazine" then
          match r.publicationDate? with
          | none => loadGo rest acc ids
          | some s =>
            match parseIso s with
            | none => none
            | some pd =>
              match mkMagazine r pd with
              | some it => loadGo rest (acc ++ [it]) (ids ++ [it.itemId])
              | none => loadGo rest acc ids
        else if ty = "DVD" then
          match mkDVD r with
          | some it => loadGo rest (acc ++ [it]) (ids ++ [it.itemId])
          | none => loadGo rest acc ids
        else loadGo rest acc ids

/-- `_load_data` on a parsed JSON array, starting from the empty collection
(it runs only in `__init__`, where `self._items = []`). -/
def load_data (records : List RawRecord) : Option (List Item) := loadGo records [] []

/-! ### The store

`LibrarySystem` holds the in-memory collection `_items` and the data file;
`file` models the JSON array currently on disk.  `save` is `_save_data`. -/

structure LibrarySystem where
  items : List Item
  file : List RawRecord
deriving DecidableEq, Repr

def LibrarySystem.save (st : LibrarySystem) : LibrarySystem :=
  { st with file := save_data st.items }

/-- `_find_item_by_id`: first item whose `itemId` equals the query, else
`None`. -/
def find_item_by_id (items : List Item) (id : String) : Option Item :=
  items.find? (fun it => it.itemId == id)

/-- `add_item`: reject duplicates (returning `False`, touching neither the
collection nor the file), otherwise append, save and return `True`. -/
def add_item (st : LibrarySystem) (item : Item) : Bool × LibrarySystem :=
  match find_item_by_id st.items item.itemId with
  | some _ => (false, st)
  | none => (true, LibrarySystem.save { st with items := st.items ++ [item] })

/-- The observable outcome of `LibrarySystem.borrow_item`: the not-found
error message, the unavailable message from `LibraryItem.borrow_item`
(both make the method return `False`), or the success path (return
`True`). -/
inductive BorrowOutcome where
  | notFound
  | alreadyBorrowed
  | ok
deriving DecidableEq, Repr

/-- `_find_item_by_id` followed by the in-place `LibraryItem.borrow_item`
mutation: the first item whose id matches is flipped to unavailable iff it
was available; later items are untouched. -/
def borrowFirst (id : String) : List Item → BorrowOutcome × List Item
  | [] => (.notFound, [])
  | it :: rest =>
    if it.itemId = id then
      if it.available then (.ok, it.setAvailable false :: rest)
      else (.alreadyBorrowed, it :: rest)
    else
      let p := borrowFirst id rest
      (p.1, it :: p.2)

/-- `LibrarySystem.borrow_item`: saves only when the borrow succeeded. -/
def borrow_item (st : LibrarySystem) (id : String) : BorrowOutcome × LibrarySystem :=
  match borrowFirst id st.items with
  | (.ok, items2) => (.ok, LibrarySystem.save { st with items := items2 })
  | (r, items2) => (r, { st with items := items2 })

/-- The observable outcome of `LibrarySystem.return_item`: either the
not-found error message, or the unconditional return plus save. -/
inductive ReturnOutcome where
  | notFound
  | ok
deriving DecidableEq, Repr

/-- `_find_item_by_id` followed by the in-place `LibraryItem.return_item`
mutation, which sets `available = True` unconditionally on the first item
whose id matches. -/
def returnFirst (id : String) : List Item → ReturnOutcome × List Item
  | [] => (.notFound, [])
  | it :: rest =>
    if it.itemId = id then (.ok, it.setAvailable true :: rest)
    else
      let p := returnFirst id rest
      (p.1, it :: p.2)

/-- `LibrarySystem.return_item`: if the item is found it is returned and
the catalog saved; otherwise only an error message is printed. -/
def return_item (st : LibrarySystem) (id : String) : ReturnOutcome × LibrarySystem :=
  match returnFirst id st.items with
  | (.ok, items2) => (.ok, LibrarySystem.save { st with items := items2 })
  | (.notFound, _) => (.notFound, st)

/-! ### Search

Python's `query in s` is contiguous-substring containment; `str.lower()`
is modelled by `Char.toLower` per character (the catalog data is ASCII,
where the two agree). -/

def pyLower (s : String) : String := ⟨s.data.map Char.toLower⟩

def startsWithChars : List Char → List Char → Bool
  | [], _ => true
  | _ :: _, [] => false
  | a :: as, b :: bs => a == b && startsWithChars as bs

/-- `needle in haystack` for Python strings, at the character-list level. -/
def hasSubChars (needle : List Char) : List Char → Bool
  | [] => startsWithChars needle []
  | c :: rest => startsWithChars needle (c :: rest) || hasSubChars needle rest

def pyIn (needle haystack : String) : Bool := hasSubChars needle.data haystack.data

/-- `search_item`: empty query gives `[]`; otherwise a lowercase substring
match against title or id, in collection order. -/
def search_item (st : LibrarySystem) (query : String) : List Item :=
  if query = "" then []
  else
    st.items.filter (fun it =>
      pyIn (pyLower query) (pyLower it.title) || pyIn (pyLower query) (pyLower it.itemId))

/-! ### The demo fixture -/

/-- The `initial_items` list of `populate_with_initial_data`. -/
def initial_items : List Item :=
  [ .book "The Hobbit" "J.R.R. Tolkien" "B001" 310 "Fantasy" true,
    .book "1984" "George Orwell" "B002" 328 "Dystopian" true,
    .book "Dune" "Frank Herbert" "B003" 412 "Science Fiction" true,
    .book "Foundation" "Isaac Asimov" "B004" 255 "Science Fiction" true,
    .book "Brave New World" "Aldous Huxley" "B005" 311 "Dystopian" true,
    .dvd "The Matrix" "Wachowskis" 136 "D001" true,
    .dvd "Inception" "Christopher Nolan" 148 "D002" true,
    .dvd "The Lord of the Rings" "Peter Jackson" 201 "D003" true,
    .magazine "National Geographic" 230 ⟨2023, 10, 1⟩ "M001" "" true,
    .magazine "Scientific American" 1089 ⟨2024, 1, 1⟩ "M002" "" true,
    .magazine "Time" 5221 ⟨2023, 12, 25⟩ "M003" "" true ]

/-- `populate_with_initial_data`: append the fixture directly (no duplicate
check), borrow `B002` and `D003` through `_find_item_by_id` plus the
object-level `borrow_item` (a no-op if absent or unavailable), then save. -/
def populate_with_initial_data (st : LibrarySystem) : LibrarySystem :=
  let st1 : LibrarySystem := { st with items := st.items ++ initial_items }
  let st2 : LibrarySystem := { st1 with items := (borrowFirst "B002" st1.items).2 }
  let st3 : LibrarySystem := { st2 with items := (borrowFirst "D003" st2.items).2 }
  st3.save

/-! ### Helper lemmas about `_find_item_by_id` and the in-place mutations -/

theorem find_item_by_id_eq_none {items : List Item} {id : String} :
    find_item_by_id items id = none ↔ ∀ it ∈ items, it.itemId ≠ id := by
  simp [find_item_by_id, List.find?_eq_none]

theorem find_item_by_id_isSome {items : List Item} {id : String}
    (h : ∃ it ∈ items, it.itemId = id) : ∃ it, find_item_by_id items id = some it := by
  have hs : (find_item_by_id items id).isSome = true := by
    rw [find_item_by_id, List.find?_isSome]
    obtain ⟨it, hm, he⟩ := h
    exact ⟨it, hm, by simp [he]⟩
  exact Option.isSome_iff_exists.mp hs

theorem borrowFirst_not_found {id : String} {l : List Item}
    (h : ∀ it ∈ l, it.itemId ≠ id) : borrowFirst id l = (.notFound, l) := by
  induction l with
  | nil => rfl
  | cons it rest ih =>
    rw [borrowFirst, if_neg (h it (List.mem_cons_self it rest))]
    simp only [ih (fun jt hm => h jt (List.mem_cons_of_mem it hm))]

theorem borrowFirst_found {id : String} {pre post : List Item} {it : Item}
    (hpre : ∀ jt ∈ pre, jt.itemId ≠ id) (hit : it.itemId = id) :
    borrowFirst id (pre ++ it :: post) =
      if it.available then (.ok, pre ++ it.setAvailable false :: post)
      else (.alreadyBorrowed, pre ++ it :: post) := by
  induction pre with
  | nil =>
    simp only [List.nil_append]
    rw [borrowFirst, if_pos hit]
  | cons jt pre ih =>
    simp only [List.cons_append]
    rw [borrowFirst, if_neg (hpre jt (List.mem_cons_self jt pre))]
    rw [ih (fun kt hm => hpre kt (List.mem_cons_of_mem jt hm))]
    split <;> rfl

theorem returnFirst_not_found {id : String} {l : List Item}
    (h : ∀ it ∈ l, it.itemId ≠ id) : returnFirst id l = (.notFound, l) := by
  induction l with
  | nil => rfl
  | cons it rest ih =>
    rw [returnFirst, if_neg (h it (List.mem_cons_self it rest))]
    simp only [ih (fun jt hm => h jt (List.mem_cons_of_mem it hm))]

theorem returnFirst_found {id : String} {pre post : List Item} {it : Item}
    (hpre : ∀ jt ∈ pre, jt.itemId ≠ id) (hit : it.itemId = id) :
    returnFirst id (pre ++ it :: post) = (.ok, pre ++ it.setAvailable true :: post) := by
  induction pre with
  | nil =>
    simp only [List.nil_append]
    rw [returnFirst, if_pos hit]
  | cons jt pre ih =>
    simp only [List.cons_append]
    rw [returnFirst, if_neg (hpre jt (List.mem_cons_self jt pre))]
    rw [ih (fun kt hm => hpre kt (List.mem_cons_of_mem jt hm))]

/-! ### Claims C4, C3, C5: each mutation's failure/success contract -/

/-- Claim C4: for every catalog and every item, `addItem(item)` fails
(returning `False`) when an item with the same `itemId` is already
present, mutating neither the collection nor the file; otherwise it
appends the item, persists the catalog to the file, and succeeds
(returning `True`). -/
theorem add_item_spec (st : LibrarySystem) (item : Item) :
    ((∃ it ∈ st.items, it.itemId = item.itemId) →
      add_item st item = (false, st)) ∧
    ((∀ it ∈ st.items, it.itemId ≠ item.itemId) →
      add_item st item =
        (true, { items := st.items ++ [item], file := save_data (st.items ++ [item]) })) := by
  constructor
  · intro h
    obtain ⟨it, hf⟩ := find_item_by_id_isSome h
    rw [add_item, hf]
  · intro h
    rw [add_item, find_item_by_id_eq_none.mpr h]
    rfl

/-- Claim C4 witness: adding `B001` twice to an empty store. -/
theorem add_item_spec_witness :
    add_item ⟨[Item.book "The Hobbit" "J.R.R. Tolkien" "B001" 310 "Fantasy" true], []⟩
        (Item.dvd "The Matrix" "Wachowskis" 136 "B001" true) =
      (false, ⟨[Item.book "The Hobbit" "J.R.R. Tolkien" "B001" 310 "Fantasy" true], []⟩) ∧
    add_item ⟨[], []⟩ (Item.book "The Hobbit" "J.R.R. Tolkien" "B001" 310 "Fantasy" true) =
      (true, { items := [Item.book "The Hobbit" "J.R.R. Tolkien" "B001" 310 "Fantasy" true],
               file := save_data [Item.book "The Hobbit" "J.R.R. Tolkien" "B001" 310 "Fantasy" true] }) :=
  ⟨(add_item_spec _ _).1 (by decide),
   by
    have h := (add_item_spec ⟨[], []⟩ (Item.book "The Hobbit" "J.R.R. Tolkien" "B001" 310 "Fantasy" true)).2 (by decide)
    simpa using h⟩

/-- Claim C3: for every catalog and every id, `borrowItem(id)` fails with
`NotFound` when no item has that id; fails with `AlreadyBorrowed` when the
first item with that id is already unavailable, leaving the whole state
unchanged; and otherwise flips that item to unavailable, persists the new
catalog to the file, and succeeds. -/
theorem borrow_item_spec (st : LibrarySystem) (id : String) :
    ((∀ it ∈ st.items, it.itemId ≠ id) → borrow_item st id = (.notFound, st)) ∧
    (∀ pre it post, st.items = pre ++ it :: post → (∀ jt ∈ pre, jt.itemId ≠ id) →
      it.itemId = id → it.available = false →
      borrow_item st id = (.alreadyBorrowed, st)) ∧
    (∀ pre it post, st.items = pre ++ it :: post → (∀ jt ∈ pre, jt.itemId ≠ id) →
      it.itemId = id → it.available = true →
      borrow_item st id =
        (.ok, { items := pre ++ it.setAvailable false :: post,
                file := save_data (pre ++ it.setAvailable false :: post) })) := by
  refine ⟨?_, ?_, ?_⟩
  · intro h
    rw [borrow_item, borrowFirst_not_found h]
  · intro pre it post hsplit hpre hit hav
    rw [borrow_item, hsplit, borrowFirst_found hpre hit, if_neg (by simp [hav])]
    rw [← hsplit]
  · intro pre it post hsplit hpre hit hav
    rw [borrow_item, hsplit, borrowFirst_found hpre hit, if_pos hav]
    rfl

/-- Claim C3 witness: a two-item catalog exercising all three branches. -/
theorem borrow_item_spec_witness :
    borrow_item ⟨[Item.book "A" "a" "X" 1 "g" true, Item.dvd "B" "b" 2 "Y" false], []⟩ "Z" =
      (.notFound, ⟨[Item.book "A" "a" "X" 1 "g" true, Item.dvd "B" "b" 2 "Y" false], []⟩) ∧
    borrow_item ⟨[Item.book "A" "a" "X" 1 "g" true, Item.dvd "B" "b" 2 "Y" false], []⟩ "Y" =
      (.alreadyBorrowed, ⟨[Item.book "A" "a" "X" 1 "g" true, Item.dvd "B" "b" 2 "Y" false], []⟩) ∧
    borrow_item ⟨[Item.book "A" "a" "X" 1 "g" true, Item.dvd "B" "b" 2 "Y" false], []⟩ "X" =
      (.ok, { items := [Item.book "A" "a" "X" 1 "g" false, Item.dvd "B" "b" 2 "Y" false],
              file := save_data [Item.book "A" "a" "X" 1 "g" false, Item.dvd "B" "b" 2 "Y" false] }) := by
  refine ⟨(borrow_item_spec _ "Z").1 (by decide), ?_, ?_⟩
  · have h := (borrow_item_spec ⟨[Item.book "A" "a" "X" 1 "g" true, Item.dvd "B" "b" 2 "Y" false], []⟩ "Y").2.1
      [Item.book "A" "a" "X" 1 "g" true] (Item.dvd "B" "b" 2 "Y" false) [] (by decide) (by decide) (by decide) (by decide)
    simpa using h
  · have h := (borrow_item_spec ⟨[Item.book "A" "a" "X" 1 "g" true, Item.dvd "B" "b" 2 "Y" false], []⟩ "X").2.2
      [] (Item.book "A" "a" "X" 1 "g" true) [Item.dvd "B" "b" 2 "Y" false] (by decide) (by decide) (by decide) (by decide)
    simpa using h

/-- Claim C5: for every catalog and every id, `returnItem(id)` signals
`NotFound` when no item has that id (leaving the state unchanged);
otherwise it sets the first matching item's `available` flag to `true`
unconditionally and persists the catalog to the file.  Setting the flag on
an already-available item is the identity, so returning twice is
idempotent and not an error. -/
theorem return_item_spec (st : LibrarySystem) (id : String) :
    ((∀ it ∈ st.items, it.itemId ≠ id) → return_item st id = (.notFound, st)) ∧
    (∀ pre it post, st.items = pre ++ it :: post → (∀ jt ∈ pre, jt.itemId ≠ id) →
      it.itemId = id →
      return_item st id =
        (.ok, { items := pre ++ it.setAvailable true :: post,
                file := save_data (pre ++ it.setAvailable true :: post) })) ∧
    (∀ it : Item, it.available = true → it.setAvailable true = it) := by
  refine ⟨?_, ?_, ?_⟩
  · intro h
    rw [return_item, returnFirst_not_found h]
  · intro pre it post hsplit hpre hit
    rw [return_item, hsplit, returnFirst_found hpre hit]
    rfl
  · intro it hav
    cases it <;> simp_all [Item.available, Item.setAvailable]

/-- Claim C5 witness: returning a borrowed item and re-returning an
available one. -/
theorem return_item_spec_witness :
    return_item ⟨[Item.dvd "B" "b" 2 "Y" false], []⟩ "Z" =
      (.notFound, ⟨[Item.dvd "B" "b" 2 "Y" false], []⟩) ∧
    return_item ⟨[Item.dvd "B" "b" 2 "Y" false], []⟩ "Y" =
      (.ok, { items := [Item.dvd "B" "b" 2 "Y" true],
              file := save_data [Item.dvd "B" "b" 2 "Y" true] }) ∧
    (Item.dvd "B" "b" 2 "Y" true).setAvailable true = Item.dvd "B" "b" 2 "Y" true := by
  refine ⟨(return_item_spec _ "Z").1 (by decide), ?_,
    (return_item_spec ⟨[], []⟩ "Y").2.2 (Item.dvd "B" "b" 2 "Y" true) (by decide)⟩
  have h := (return_item_spec ⟨[Item.dvd "B" "b" 2 "Y" false], []⟩ "Y").2.1
    [] (Item.dvd "B" "b" 2 "Y" false) [] (by decide) (by decide) (by decide)
  simpa using h

/-! ### Claim C2: id uniqueness is preserved by any sequence of adds -/

/-- A sequence of `add_item` calls, as driven by any caller of the store. -/
def addAll (st : LibrarySystem) : List Item → LibrarySystem
  | [] => st
  | it :: rest => addAll (add_item st it).2 rest

theorem add_item_nodup {st : LibrarySystem} (it : Item)
    (h : (st.items.map Item.itemId).Nodup) :
    (((add_item st it).2).items.map Item.itemId).Nodup := by
  rw [add_item]
  cases hf : find_item_by_id st.items it.itemId with
  | some jt => exact h
  | none =>
    have hni : it.itemId ∉ st.items.map Item.itemId := by
      rw [find_item_by_id_eq_none] at hf
      simp only [List.mem_map, not_exists]
      rintro jt ⟨hm, he⟩
      exact hf jt hm he
    show ((st.items ++ [it]).map Item.itemId).Nodup
    rw [List.map_append, List.map_singleton, List.nodup_append]
    refine ⟨h, List.nodup_singleton _, ?_⟩
    intro a ha hb
    rw [List.mem_singleton] at hb
    subst hb
    exact hni ha

/-- Claim C2: starting from a catalog whose itemIds are pairwise distinct,
the itemIds remain pairwise distinct after any sequence of `addItem`
calls; an add whose itemId is already present is rejected (`False`)
without changing the state, never silently overwriting the existing
item. -/
theorem addAll_unique_ids (st : LibrarySystem) (adds : List Item)
    (h : (st.items.map Item.itemId).Nodup) :
    (((addAll st adds).items.map Item.itemId).Nodup) ∧
    (∀ (st2 : LibrarySystem) (it : Item), (∃ jt ∈ st2.items, jt.itemId = it.itemId) →
      add_item st2 it = (false, st2)) := by
  constructor
  · induction adds generalizing st with
    | nil => exact h
    | cons it rest ih => exact ih _ (add_item_nodup it h)
  · intro st2 it hdup
    exact (add_item_spec st2 it).1 hdup

/-- Claim C2 witness: adding the same book twice to an empty store keeps
the ids pairwise distinct. -/
theorem addAll_unique_ids_witness :
    ((addAll ⟨[], []⟩ [Item.book "A" "a" "X" 1 "g" true, Item.book "A2" "a2" "X" 2 "g2" true]).items.map
        Item.itemId).Nodup :=
  (addAll_unique_ids ⟨[], []⟩
    [Item.book "A" "a" "X" 1 "g" true, Item.book "A2" "a2" "X" 2 "g2" true] (by decide)).1

/-! ### Claim C1: the save/load round trip -/

theorem dupId_save_record (it : Item) (ids : List String) :
    dupId (save_record it) ids = ids.contains it.itemId := by
  cases it <;> rfl

theorem loadGo_cons_item (it : Item) (rest : List RawRecord) (acc : List Item) (ids : List String)
    (hdup : it.itemId ∉ ids) (hdate : it.validDate = true) :
    loadGo (save_record it :: rest) acc ids = loadGo rest (acc ++ [it]) (ids ++ [it.itemId]) := by
  have hd : dupId (save_record it) ids = false := by
    rw [dupId_save_record]
    simpa using hdup
  rw [loadGo, if_neg (by simp [hd])]
  cases it with
  | book t a i n g av => rfl
  | dvd t dir du i av => rfl
  | magazine t iss pd i a av =>
    show (match parseIso pd.toIso with
          | none => none
          | some pd2 =>
            match mkMagazine (save_record (Item.magazine t iss pd i a av)) pd2 with
            | some it2 => loadGo rest (acc ++ [it2]) (ids ++ [it2.itemId])
            | none => loadGo rest acc ids) =
        loadGo rest (acc ++ [Item.magazine t iss pd i a av])
          (ids ++ [(Item.magazine t iss pd i a av).itemId])
    rw [parseIso_toIso hdate]
    rfl

theorem loadGo_save_data (items : List Item) : ∀ (acc : List Item) (ids : List String),
    (∀ it ∈ items, it.itemId ∉ ids) →
    (items.map Item.itemId).Nodup →
    (∀ it ∈ items, it.validDate = true) →
    loadGo (save_data items) acc ids = some (acc ++ items) := by
  induction items with
  | nil =>
    intro acc ids _ _ _
    simp [save_data, loadGo]
  | cons it rest ih =>
    intro acc ids hdisj hnodup hdates
    rw [show save_data (it :: rest) = save_record it :: save_data rest from rfl]
    rw [loadGo_cons_item it (save_data rest) acc ids (hdisj it (by simp)) (hdates it (by simp))]
    rw [ih (acc ++ [it]) (ids ++ [it.itemId]) ?hdisj2 ?hnodup2 ?hdates2]
    · simp
    case hdisj2 =>
      intro jt hm
      rw [List.mem_append, List.mem_singleton]
      push_neg
      refine ⟨hdisj jt (by simp [hm]), ?_⟩
      rw [List.map_cons, List.nodup_cons] at hnodup
      intro he
      exact hnodup.1 (he ▸ List.mem_map_of_mem Item.itemId hm)
    case hnodup2 =>
      rw [List.map_cons, List.nodup_cons] at hnodup
      exact hnodup.2
    case hdates2 =>
      intro jt hm
      exact hdates jt (by simp [hm])

/-- Claim C1: saving any catalog whose ids are pairwise distinct (the
store's invariant) and whose magazine dates are calendar-valid (guaranteed
by Python's `date` type) and then loading the written file reproduces the
identical list of items: every field of every variant, the availability
flag, the discriminator, and the Magazine publication date (written as
ISO-8601 text, restored to a structured date) survive the trip. -/
theorem save_load_round_trip (items : List Item)
    (hids : (items.map Item.itemId).Nodup)
    (hdates : ∀ it ∈ items, it.validDate = true) :
    load_data (save_data items) = some items := by
  rw [load_data, loadGo_save_data items [] [] (by simp) hids hdates]
  simp

/-- Claim C1 witness: a concrete catalog with one item of each variant. -/
theorem save_load_round_trip_witness :
    load_data (save_data
      [Item.book "The Hobbit" "J.R.R. Tolkien" "B001" 310 "Fantasy" true,
       Item.dvd "The Lord of the Rings" "Peter Jackson" 201 "D003" false,
       Item.magazine "Time" 5221 ⟨2023, 12, 25⟩ "M003" "" true]) =
    some
      [Item.book "The Hobbit" "J.R.R. Tolkien" "B001" 310 "Fantasy" true,
       Item.dvd "The Lord of the Rings" "Peter Jackson" 201 "D003" false,
       Item.magazine "Time" 5221 ⟨2023, 12, 25⟩ "M003" "" true] :=
  save_load_round_trip _ (by decide) (by decide)

/-! ### Claim C6: search semantics -/

theorem startsWithChars_iff {n h : List Char} :
    startsWithChars n h = true ↔ ∃ t, h = n ++ t := by
  induction n generalizing h with
  | nil => simp [startsWithChars]
  | cons a as ih =>
    cases h with
    | nil => simp [startsWithChars]
    | cons b bs =>
      rw [startsWithChars]
      simp only [Bool.and_eq_true, beq_iff_eq, ih, List.cons_append, List.cons.injEq]
      constructor
      · rintro ⟨heq, t, rfl⟩
        exact ⟨t, heq.symm, rfl⟩
      · rintro ⟨t, heq, rfl⟩
        exact ⟨heq.symm, t, rfl⟩

theorem hasSubChars_iff {n h : List Char} :
    hasSubChars n h = true ↔ ∃ p t, h = p ++ n ++ t := by
  induction h with
  | nil =>
    rw [hasSubChars, startsWithChars_iff]
    constructor
    · rintro ⟨t, ht⟩
      exact ⟨[], t, by simpa using ht⟩
    · rintro ⟨p, t, hpt⟩
      have h2 := hpt.symm
      rw [List.append_eq_nil, List.append_eq_nil] at h2
      exact ⟨[], by simp [h2.1.2]⟩
  | cons c rest ih =>
    rw [hasSubChars]
    simp only [Bool.or_eq_true, startsWithChars_iff, ih]
    constructor
    · rintro (⟨t, ht⟩ | ⟨p, t, rfl⟩)
      · exact ⟨[], t, by simpa using ht⟩
      · exact ⟨c :: p, t, rfl⟩
    · rintro ⟨p, t, he⟩
      cases p with
      | nil =>
        left
        exact ⟨t, by simpa using he⟩
      | cons x xs =>
        right
        rw [List.cons_append, List.cons_append, List.cons.injEq] at he
        exact ⟨xs, t, he.2⟩

/-- Python's `needle in haystack` holds exactly when `needle` occurs as a
contiguous substring. -/
theorem pyIn_iff {needle haystack : String} :
    pyIn needle haystack = true ↔ ∃ p t, haystack.data = p ++ needle.data ++ t := by
  rw [pyIn, hasSubChars_iff]

/-- Claim C6: `search(query)` returns exactly the items (a sub-sequence of
the catalog) whose lowercased title or lowercased itemId contains the
lowercased query as a contiguous substring; the empty query returns the
empty list, not the whole catalog; and searching `"dune"` in the demo
catalog (which holds the book titled `"Dune"`) returns exactly that
book. -/
theorem search_item_spec :
    (∀ st : LibrarySystem, search_item st "" = []) ∧
    (∀ (st : LibrarySystem) (query : String), query ≠ "" →
      (List.Sublist (search_item st query) st.items ∧
        ∀ it : Item, it ∈ search_item st query ↔
          (it ∈ st.items ∧
            ((∃ p t, (pyLower it.title).data = p ++ (pyLower query).data ++ t) ∨
             (∃ p t, (pyLower it.itemId).data = p ++ (pyLower query).data ++ t))))) ∧
    (search_item ⟨initial_items, []⟩ "dune" =
      [Item.book "Dune" "Frank Herbert" "B003" 412 "Science Fiction" true]) := by
  refine ⟨?_, ?_, by decide⟩
  · intro st
    rw [search_item, if_pos rfl]
  · intro st query hq
    rw [search_item, if_neg hq]
    refine ⟨List.filter_sublist _, ?_⟩
    intro it
    rw [List.mem_filter]
    simp only [Bool.or_eq_true, pyIn_iff]

/-- Claim C6 witness: the empty query and the `"dune"` query on the demo
catalog. -/
theorem search_item_spec_witness :
    search_item ⟨initial_items, []⟩ "" = [] ∧
    (List.Sublist (search_item ⟨initial_items, []⟩ "dune") initial_items ∧
      ∀ it : Item, it ∈ search_item ⟨initial_items, []⟩ "dune" ↔
        (it ∈ initial_items ∧
          ((∃ p t, (pyLower it.title).data = p ++ (pyLower "dune").data ++ t) ∨
           (∃ p t, (pyLower it.itemId).data = p ++ (pyLower "dune").data ++ t)))) :=
  ⟨search_item_spec.1 ⟨initial_items, []⟩,
   search_item_spec.2.1 ⟨initial_items, []⟩ "dune" (by decide)⟩

/-! ### Claim C7: load is partial-failure tolerant -/

/-- The demo catalog after seeding: the eleven fixture items with `B002`
and `D003` flipped to unavailable. -/
def seeded_items : List Item :=
  [ .book "The Hobbit" "J.R.R. Tolkien" "B001" 310 "Fantasy" true,
    .book "1984" "George Orwell" "B002" 328 "Dystopian" false,
    .book "Dune" "Frank Herbert" "B003" 412 "Science Fiction" true,
    .book "Foundation" "Isaac Asimov" "B004" 255 "Science Fiction" true,
    .book "Brave New World" "Aldous Huxley" "B005" 311 "Dystopian" true,
    .dvd "The Matrix" "Wachowskis" 136 "D001" true,
    .dvd "Inception" "Christopher Nolan" 148 "D002" true,
    .dvd "The Lord of the Rings" "Peter Jackson" 201 "D003" false,
    .magazine "National Geographic" 230 ⟨2023, 10, 1⟩ "M001" "" true,
    .magazine "Scientific American" 1089 ⟨2024, 1, 1⟩ "M002" "" true,
    .magazine "Time" 5221 ⟨2023, 12, 25⟩ "M003" "" true ]

/-- Claim C8: seeding an empty store (whatever the file held) yields
exactly the eleven demo items, ids `B001`–`B005`, `D001`–`D003`,
`M001`–`M003`, with precisely `B002` and `D003` unavailable, and persists
the seeded catalog to the file. -/
theorem populate_empty_store (f : List RawRecord) :
    populate_with_initial_data ⟨[], f⟩ = ⟨seeded_items, save_data seeded_items⟩ ∧
    seeded_items.length = 11 ∧
    seeded_items.map Item.itemId =
      ["B001", "B002", "B003", "B004", "B005", "D001", "D002", "D003",
       "M001", "M002", "M003"] ∧
    (∀ it ∈ seeded_items, (it.available = false ↔ (it.itemId = "B002" ∨ it.itemId = "D003"))) :=
  ⟨rfl, by decide, by decide, by decide⟩

/-- Claim C8 witness: the seed on the empty store with an empty file. -/
theorem populate_empty_store_witness :
    populate_with_initial_data ⟨[], []⟩ = ⟨seeded_items, save_data seeded_items⟩ ∧
    ((Item.book "1984" "George Orwell" "B002" 328 "Dystopian" false).available = false ↔
      ((Item.book "1984" "George Orwell" "B002" 328 "Dystopian" false).itemId = "B002" ∨
       (Item.book "1984" "George Orwell" "B002" 328 "Dystopian" false).itemId = "D003")) :=
  ⟨(populate_empty_store []).1, (populate_empty_store []).2.2.2 _ (by decide)⟩

/-! ### Claim C9: the persisted DVD record -/

/-- Claim C9 counterexample: the record `_save_data` writes for the demo
DVD `D001` does not carry the empty string under `author`; it carries the
director. -/
theorem dvd_record_author_not_empty :
    (save_record (Item.dvd "The Matrix" "Wachowskis" 136 "D001" true)).author? ≠ some "" := by
  decide

/-- Claim C9 (amended): for every DVD, the persisted record carries the
director under the `director` field and that same director string — not
the empty string — under the `author` field, because `DVD.__init__`
passes the director to the base-class constructor as its `author`. -/
theorem dvd_record_author_is_director (t dir : String) (du : Int) (i : String) (av : Bool) :
    (save_record (Item.dvd t dir du i av)).director? = some dir ∧
    (save_record (Item.dvd t dir du i av)).author? = some dir :=
  ⟨rfl, rfl⟩

/-! ### Claim C10: the seed bypasses the duplicate check -/

/-- Claim C10: `populate_with_initial_data` appends its eleven fixture
items without any duplicate-id check, so on a catalog that already holds
the id `B001` it produces a catalog with `B001` twice (ids no longer
pairwise distinct); only on the empty catalog does the uniqueness
invariant survive seeding. -/
theorem populate_bypasses_duplicate_check :
    ((populate_with_initial_data
        ⟨[Item.book "X" "Y" "B001" 1 "G" true], []⟩).items.map Item.itemId).count "B001" = 2 ∧
    ¬ ((populate_with_initial_data
        ⟨[Item.book "X" "Y" "B001" 1 "G" true], []⟩).items.map Item.itemId).Nodup ∧
    ((populate_with_initial_data ⟨[], []⟩).items.map Item.itemId).Nodup :=
  ⟨by decide, by decide, by decide⟩

end LibrarySpec
